import Mathlib

/-!
Verification of the signature-detection / entity-reconciliation core of the
pub-pdf-extraction repository.

The Detection Aggregator is `SignatureDetector.detect_signatures_in_pdf`
(src/signature_detector.py) and the Entity Reconciler is
`enhance_entities_with_signature_validation` (src/pdf_extractor.py).
Both are embedded shallowly below: the remote classifier call is an input
(`ClassifyOutcome`), Python dictionaries with possibly-missing keys become
structures of `Option` fields, Python `dict.get` with a default becomes
`Option.getD`, a raising subscript `d[k]` becomes a computation in
`Except String`, and floats (the confidence values, only ever compared
against 0.5) become rationals.
-/

namespace PdfExtraction

/-- ASCII lowercasing of a string, used to embed Python `str.lower()`
(all strings in the verified code paths are ASCII). -/
def pyLower (s : String) : String := String.mk (s.data.map Char.toLower)

/-- `startsWithL p l` : the char list `l` starts with `p`. -/
def startsWithL : List Char → List Char → Bool
  | [], _ => true
  | _ :: _, [] => false
  | p :: ps, c :: cs => p = c && startsWithL ps cs

/-- Substring containment on char lists; embeds Python `needle in haystack`. -/
def containsL (needle : List Char) : List Char → Bool
  | [] => startsWithL needle []
  | c :: cs => startsWithL needle (c :: cs) || containsL needle cs

/-- A single or double quotation mark, the character class of the regex
`name ['\x22]([^'\x22]+)['\x22]` in src/pdf_extractor.py line 105. -/
def isQuote (c : Char) : Bool := c = Char.ofNat 39 || c = Char.ofNat 34

/-- Splits a char list at the first quotation mark: the run of non-quote
characters (the greedy `[^'\x22]+` of the regex) and the rest. -/
def takeNonQuote : List Char → List Char × List Char
  | [] => ([], [])
  | c :: cs =>
    if isQuote c then ([], c :: cs)
    else
      let r := takeNonQuote cs
      (c :: r.1, r.2)

/-- Tries to match the regex `name ['\x22]([^'\x22]+)['\x22]` at the start of
the given char list, returning the captured group. -/
def tryNameAt (cs : List Char) : Option String :=
  if startsWithL ("name ").toList cs then
    match cs.drop 5 with
    | [] => none
    | q :: rest =>
      if isQuote q then
        match takeNonQuote rest with
        | ([], _) => none
        | (_, []) => none
        | (run, q2 :: _) => if isQuote q2 then some (String.mk run) else none
      else none
  else none

/-- Embeds `re.search(r"name ['\x22]([^'\x22]+)['\x22]", description)`
(src/pdf_extractor.py line 105): leftmost match, first capture group. -/
def reNameSearch : List Char → Option String
  | [] => none
  | c :: cs =>
    match tryNameAt (c :: cs) with
    | some r => some r
    | none => reNameSearch cs

/-! ## Detector data model -/

/-- One entry of the classifier's `individual_signatures` JSON array
(src/signature_detector.py lines 322-329); keys may be missing. -/
structure SigInfo where
  position : Option String := none
  type : Option String := none
  description : Option String := none
deriving DecidableEq

/-- The parsed classifier verdict JSON (src/signature_detector.py
lines 314-331); all keys may be missing, and the detector reads them with
`dict.get` defaults. -/
structure Classification where
  is_signature : Option Bool := none
  confidence : Option ℚ := none
  signature_count : Option Int := none
  individual_signatures : Option (List SigInfo) := none
  error : Option String := none
deriving DecidableEq

/-- The metadata of one image candidate that the aggregator reads:
its page number (absent means the Python default `"unknown"`) and whether
it came from PyMuPDF embedded extraction (`"image_data" in image_info`). -/
structure ImageInfo where
  page_number : Option Nat := none
  embedded : Bool := true
deriving DecidableEq

/-- One entry of `results["signature_details"]` as built in
src/signature_detector.py lines 481-522.  `signature_index_in_image` and
`total_full_signatures_in_image` are `Option` because the single-signature
branch (lines 509-517) does not put those keys in the dict. -/
structure SigDetail where
  signature_id : String
  page_number : Option Nat := none
  classification : Classification
  confidence : ℚ
  signature_index_in_image : Option Int := none
  total_full_signatures_in_image : Option Int := none
  total_marks_in_image : Int
  image_source : String
  signature_type : String
  individual_signature_info : Option SigInfo := none
deriving DecidableEq

/-- The mutable accumulator of `detect_signatures_in_pdf`
(src/signature_detector.py lines 387-395), restricted to the fields the
classification loop touches. -/
structure DetState where
  signatures_found : Nat := 0
  signature_details : List SigDetail := []
  processing_errors : List String := []
deriving DecidableEq

/-- The outcome of the remote classifier call made inside
`classify_image_as_signature`: either a parsed JSON verdict or an
exception (transport failure or `json.loads` failure). -/
inductive ClassifyOutcome where
  | ok (c : Classification)
  | fail (msg : String)
deriving DecidableEq

/-- What happens for one candidate of the per-image loop
(src/signature_detector.py lines 423-536): no image data could be
extracted, an exception raised in the loop body itself, or image data that
gets classified. -/
inductive ImgEvent where
  | noData
  | raised (msg : String)
  | data (info : ImageInfo) (outcome : ClassifyOutcome)
deriving DecidableEq

/-- Embeds `SignatureDetector.classify_image_as_signature`
(src/signature_detector.py lines 252-373): a successful call returns the
parsed verdict unchanged; the `except` branch (lines 367-373) catches the
exception and returns a dict holding the error message, `is_signature`
False and `confidence` 0.0 -- it does not re-raise. -/
def classify_image_as_signature : ClassifyOutcome → Classification
  | .ok c => c
  | .fail msg => { is_signature := some false, confidence := some 0, error := some msg }

/-- The aggregator's mark-kind test (src/signature_detector.py lines
460, 479, 505): `sig.get("type", "").lower() == "full_signature"`. -/
def isFullSig (s : SigInfo) : Bool := pyLower (s.type.getD "") = "full_signature"

/-- `"embedded" if "image_data" in image_info else "document_intelligence"`
(src/signature_detector.py lines 489, 515). -/
def imageSourceTag (info : ImageInfo) : String :=
  if info.embedded then "embedded" else "document_intelligence"

/-- The sig_detail dict built in the multi-signature branch
(src/signature_detector.py lines 481-494). -/
def mkMultiDetail (info : ImageInfo) (c : Classification) (conf : ℚ) (fc total : Int)
    (fsIdx : Nat) (prevLen : Nat) (s : SigInfo) : SigDetail :=
  { signature_id := "sig_" ++ toString (prevLen + 1)
    page_number := info.page_number
    classification := c
    confidence := conf
    signature_index_in_image := some ((fsIdx : Int) + 1)
    total_full_signatures_in_image := some fc
    total_marks_in_image := total
    image_source := imageSourceTag info
    signature_type := "full_signature"
    individual_signature_info := some s }

/-- The sig_detail dict built in the single-signature branch
(src/signature_detector.py lines 509-520); it carries no
`signature_index_in_image` and no `total_full_signatures_in_image` key,
and `individual_signature_info` only when a full-signature mark was found
among the itemized marks. -/
def mkSingleDetail (info : ImageInfo) (c : Classification) (conf : ℚ) (total : Int)
    (prevLen : Nat) (fsInfo : Option SigInfo) : SigDetail :=
  { signature_id := "sig_" ++ toString (prevLen + 1)
    page_number := info.page_number
    classification := c
    confidence := conf
    signature_index_in_image := none
    total_full_signatures_in_image := none
    total_marks_in_image := total
    image_source := imageSourceTag info
    signature_type := "full_signature"
    individual_signature_info := fsInfo }

/-- The `for sig_idx, sig_info in enumerate(individual_sigs)` loop of the
multi-signature branch (src/signature_detector.py lines 477-497): for each
itemized mark of (lowercased) kind full_signature, increment
`signatures_found`, append a detail record, and advance `full_sig_index`. -/
def multiLoop (info : ImageInfo) (c : Classification) (conf : ℚ) (fc total : Int) :
    List SigInfo → DetState → Nat → DetState
  | [], st, _ => st
  | s :: rest, st, fsIdx =>
    if isFullSig s then
      multiLoop info c conf fc total rest
        { st with
          signatures_found := st.signatures_found + 1
          signature_details := st.signature_details ++
            [mkMultiDetail info c conf fc total fsIdx st.signature_details.length s] }
        (fsIdx + 1)
    else multiLoop info c conf fc total rest st fsIdx

/-- One iteration of the per-image loop of `detect_signatures_in_pdf`
(src/signature_detector.py lines 423-536).  `idx` is the 0-based loop
index (used in the error message of the per-image `except`). -/
def processImage (st : DetState) (idx : Nat) (ev : ImgEvent) : DetState :=
  match ev with
  | .noData => st
  | .raised msg =>
    { st with processing_errors := st.processing_errors ++
        ["Error processing image " ++ toString (idx + 1) ++ ": " ++ msg] }
  | .data info outcome =>
    let c := classify_image_as_signature outcome
    if c.is_signature.getD false then
      let conf := c.confidence.getD 0
      let total := c.signature_count.getD 1
      let sigs := c.individual_signatures.getD []
      let fullCount : Int :=
        if sigs = [] ∧ 0 < total then total
        else ((sigs.filter isFullSig).length : Int)
      if mkRat 1 2 ≤ conf ∧ 0 < fullCount then
        if 1 < fullCount then multiLoop info c conf fullCount total sigs st 0
        else if fullCount = 1 then
          { st with
            signatures_found := st.signatures_found + 1
            signature_details := st.signature_details ++
              [mkSingleDetail info c conf total st.signature_details.length
                (sigs.find? isFullSig)] }
        else st
      else st
    else st

/-- The initial `results` accumulator (src/signature_detector.py
lines 387-395). -/
def initState : DetState := {}

/-- The classification loop over all candidates, in document order. -/
def runImages : List ImgEvent → Nat → DetState → DetState
  | [], _, st => st
  | ev :: rest, idx, st => runImages rest (idx + 1) (processImage st idx ev)

/-- Embeds the whole of `SignatureDetector.detect_signatures_in_pdf`
(src/signature_detector.py lines 375-550) given the per-candidate events;
a failure of the surrounding workflow `try` (lines 546-550) appends one
more error message and still returns the accumulated results. -/
def detect_signatures_in_pdf (events : List ImgEvent) (workflowFailure : Option String) :
    DetState :=
  let st := runImages events 0 initState
  match workflowFailure with
  | some msg =>
    { st with processing_errors := st.processing_errors ++
        ["Error in signature detection workflow: " ++ msg] }
  | none => st

/-- The `total_full_signatures_in_image` column of a report's detail list
(the spec's `sibling_count` field of SignatureRecord). -/
def siblingFields (st : DetState) : List (Option Int) :=
  st.signature_details.map fun d => d.total_full_signatures_in_image

/-! ## Reconciler data model

`enhance_entities_with_signature_validation` (src/pdf_extractor.py lines
70-211) receives the extracted-entities dict and the detector's results
dict.  Dict keys read with `dict.get` become `Option` fields; the raising
subscripts `item["name"]` / `item["designation"]` inside the inference
block become computations in `Except String`. -/

/-- One entry of `names_and_designations`; the code subscripts both keys
directly inside the inference block, so either may be missing. -/
structure NamedEntry where
  name : Option String := none
  designation : Option String := none
deriving DecidableEq

/-- One entry of `test_results`; the reconciler only reads
`result.get("pass_fail", "")` (src/pdf_extractor.py line 178). -/
structure TestResult where
  pass_fail : Option String := none
deriving DecidableEq

/-- The extracted-entities mapping, restricted to the keys the reconciler
reads (src/pdf_extractor.py lines 84, 174, 189-199); all are read with
`dict.get` and a default. -/
structure Entities where
  our_ref : Option String := none
  company_name : Option String := none
  lab_report_creation_date : Option String := none
  subject : Option String := none
  sample_reference : Option String := none
  names_and_designations : Option (List NamedEntry) := none
  test_results : Option (List TestResult) := none
deriving DecidableEq

/-- The detector-results dict as the reconciler reads it:
`signature_results.get("signatures_found", 0)` (line 88) and the guarded
key lookup `"signature_details" in signature_results` (line 91). -/
structure SigResults where
  signatures_found : Option Int := none
  signature_details : Option (List SigDetail) := none
deriving DecidableEq

/-- The `enhanced_entities` dict assembled at src/pdf_extractor.py lines
188-209, with `signature_validation_details` flattened into the
`names_found` / `signature_count_matches` / `test_results_comply` fields. -/
structure Enhanced where
  our_ref : String
  company_name : String
  lab_report_creation_date : String
  subject : String
  sample_reference : String
  names_and_designations : List NamedEntry
  expected_signatures : Nat
  actual_signatures : Int
  is_there_signature : String
  results_comply : String
  test_results : List TestResult
  names_found : List String
  signature_count_matches : Bool
  test_results_comply : Bool
  signature_detection : Option SigResults
deriving DecidableEq

/-- Embeds the raising subscript `item["name"]`. -/
def getName (it : NamedEntry) : Except String String :=
  match it.name with
  | some s => pure s
  | none => Except.error "KeyError: name"

/-- Embeds the raising subscript `item["designation"]`
(src/pdf_extractor.py line 113). -/
def getDesignation (it : NamedEntry) : Except String String :=
  match it.designation with
  | some s => pure s
  | none => Except.error "KeyError: designation"

/-- Python's short-circuiting `any(p(x) for x in l)` where evaluating the
predicate may raise. -/
def pyAny {α : Type} (p : α → Except String Bool) : List α → Except String Bool
  | [] => pure false
  | x :: xs => do
    let b ← p x
    if b then pure true else pyAny p xs

/-- Python's list comprehension `[x for x in l if p(x)]` where evaluating
the predicate may raise. -/
def pyFilter {α : Type} (p : α → Except String Bool) : List α → Except String (List α)
  | [] => pure []
  | x :: xs => do
    let b ← p x
    let rest ← pyFilter p xs
    if b then pure (x :: rest) else pure rest

/-- `[item["designation"] for item in names_and_designations]`
(src/pdf_extractor.py line 113): strict, and raises on a missing key. -/
def pyMapDesignations : List NamedEntry → Except String (List String)
  | [] => pure []
  | it :: rest => do
    let d ← getDesignation it
    let ds ← pyMapDesignations rest
    pure (d :: ds)

/-- `detected_name.lower() in item["name"].lower()`
(src/pdf_extractor.py lines 120, 131, 142); raises if the entry has no
name key. -/
def nameMatches (dn : String) (it : NamedEntry) : Except String Bool := do
  let nm ← getName it
  pure (containsL (pyLower dn).toList (pyLower nm).toList)

/-- The pure value of `nameMatches` when the name key is present. -/
def matchesB (dn : String) (it : NamedEntry) : Bool :=
  containsL (pyLower dn).toList (pyLower (it.name.getD "")).toList

/-- The first detected name that matches no existing entry
(case-insensitive substring test, as in the source loop). -/
def firstUnmatched (names : List NamedEntry) (dn : List String) : Option String :=
  dn.find? fun d => !(names.any (matchesB d))

/-- Appends an entry with designation `desig` for the given unmatched
name when one was found, else returns the list unchanged. -/
def applyFirst (names : List NamedEntry) (desig : String) : Option String → List NamedEntry
  | some d => names ++ [{ name := some d, designation := some desig }]
  | none => names

/-- The `for detected_name in detected_names: ... break` loop of the
QA/QC branches (src/pdf_extractor.py lines 119-125 and 130-137): append a
NamedSignatory for the first detected name that is not a case-insensitive
substring of any existing name, then stop. -/
def appendFirstUnmatched (names : List NamedEntry) (desig : String) :
    List String → Except String (List NamedEntry)
  | [] => pure names
  | d :: rest => do
    let m ← pyAny (nameMatches d) names
    if m then appendFirstUnmatched names desig rest
    else pure (names ++ [{ name := some d, designation := some desig }])

/-- `"QA" in item["designation"]` (src/pdf_extractor.py lines 146, 153):
case-sensitive substring test on the raw designation; raises on a missing
key. -/
def desigContains (tag : String) (it : NamedEntry) : Except String Bool := do
  let d ← getDesignation it
  pure (containsL tag.toList d.toList)

/-- The per-record body of the detected-names extraction
(src/pdf_extractor.py lines 96-108): only when the record carries an
`individual_signature_info` whose `type` is exactly the string
"full_signature" (`sig_info.get("type") == "full_signature"`, line 99,
with no lowercasing) is the description scanned -- first the substring
check `"name" in description.lower()`, then the regex search. -/
def detectedNamesStep (acc : List String) (d : SigDetail) : List String :=
  match d.individual_signature_info with
  | none => acc
  | some si =>
    if si.type = some "full_signature" then
      let desc := si.description.getD ""
      if containsL ("name".toList) ((pyLower desc).toList) then
        match reNameSearch desc.toList with
        | some nm => acc ++ [nm]
        | none => acc
      else acc
    else acc

/-- `detected_names` as collected from `signature_details`
(src/pdf_extractor.py lines 95-108). -/
def detectedNames (ds : List SigDetail) : List String :=
  ds.foldl detectedNamesStep []

/-- The name-inference block (src/pdf_extractor.py lines 112-165), run
only when more signatures were detected than names extracted: the
QA-present/QC-missing branch, the symmetric branch, then the
single-entry/two-detected-names branch. -/
def inferNames (names : List NamedEntry) (dn : List String) :
    Except String (List NamedEntry) := do
  let existing ← pyMapDesignations names
  if "QA APPROVED" ∈ existing ∧ "QC PASSED" ∉ existing then
    if names.length < dn.length then appendFirstUnmatched names "QC PASSED" dn
    else pure names
  else if "QC PASSED" ∈ existing ∧ "QA APPROVED" ∉ existing then
    if names.length < dn.length then appendFirstUnmatched names "QA APPROVED" dn
    else pure names
  else if 2 ≤ dn.length ∧ names.length = 1 then do
    let remaining ← pyFilter (fun nm => do
      let m ← pyAny (nameMatches nm) names
      pure (!m)) dn
    match remaining with
    | [] => pure names
    | r :: _ => do
      let hasQA ← pyAny (desigContains "QA") names
      if hasQA then pure (names ++ [{ name := some r, designation := some "QC PASSED" }])
      else do
        let hasQC ← pyAny (desigContains "QC") names
        if hasQC then pure (names ++ [{ name := some r, designation := some "QA APPROVED" }])
        else pure (names ++ [{ name := some r, designation := some "SIGNATORY" }])
  else pure names

/-- `signature_results.get("signatures_found", 0) if signature_results
else 0` (src/pdf_extractor.py line 88). -/
def actualOf : Option SigResults → Int
  | some sr => sr.signatures_found.getD 0
  | none => 0

/-- The guarded part of the inference condition: run the inference block
only when the detector results carry a `signature_details` key
(`"signature_details" in signature_results`, line 91) and
`actual_signatures > expected_signatures`. -/
def namesStepDetails (names0 : List NamedEntry) (actual : Int) :
    Option (List SigDetail) → Except String (List NamedEntry)
  | some ds =>
    if (names0.length : Int) < actual then inferNames names0 (detectedNames ds)
    else pure names0
  | none => pure names0

/-- The names list after the conditional inference step
(src/pdf_extractor.py lines 91-165): unchanged unless the detector
results are present, carry details, and report more signatures than
names. -/
def namesStep (names0 : List NamedEntry) (actual : Int) :
    Option SigResults → Except String (List NamedEntry)
  | some sr => namesStepDetails names0 actual sr.signature_details
  | none => pure names0

/-- The test-results loop (src/pdf_extractor.py lines 176-181):
`test_results_comply` starts True and is set False at the first record
whose lowercased `pass_fail` equals "fail". -/
def checkComplyLoop : List TestResult → Bool
  | [] => true
  | r :: rest =>
    if pyLower (r.pass_fail.getD "") = "fail" then false else checkComplyLoop rest

/-- One line of `names_found` (src/pdf_extractor.py line 201). -/
def namesFoundLine (it : NamedEntry) : String :=
  it.name.getD "Unknown" ++ " - " ++ it.designation.getD "Unknown"

/-- Assembles the `enhanced_entities` dict (src/pdf_extractor.py lines
167-209) from the (possibly augmented) names list: recompute
`expected_signatures`, derive `is_there_signature` and `results_comply`,
and embed the detector results when present. -/
def mkEnhanced (ents : Entities) (sig : Option SigResults) (names : List NamedEntry) :
    Enhanced :=
  let actual : Int := actualOf sig
  let expected := names.length
  let testResults := ents.test_results.getD []
  let comply := checkComplyLoop testResults
  { our_ref := ents.our_ref.getD "Not found"
    company_name := ents.company_name.getD "Not found"
    lab_report_creation_date := ents.lab_report_creation_date.getD "Not found"
    subject := ents.subject.getD "Not found"
    sample_reference := ents.sample_reference.getD "Not found"
    names_and_designations := names
    expected_signatures := expected
    actual_signatures := actual
    is_there_signature := if 0 < actual then "Yes" else "No"
    results_comply := if testResults = [] ∨ comply then "Yes" else "No"
    test_results := testResults
    names_found := names.map namesFoundLine
    signature_count_matches := decide (0 < expected ∧ actual = (expected : Int))
    test_results_comply := comply
    signature_detection := sig }

/-- Embeds `enhance_entities_with_signature_validation`
(src/pdf_extractor.py lines 70-211): read the names list and the detected
count, run the inference block when `actual_signatures >
expected_signatures` and the detector results carry a
`signature_details` key, then assemble the enhanced dict. -/
def enhance_entities_with_signature_validation (ents : Entities)
    (sig : Option SigResults) : Except String Enhanced := do
  let names ← namesStep (ents.names_and_designations.getD []) (actualOf sig) sig
  pure (mkEnhanced ents sig names)

/-- The designations of the entries, each read with a default -- the pure
value of `pyMapDesignations` when every designation key is present. -/
def designationsOf (names : List NamedEntry) : List String :=
  names.map fun it => it.designation.getD ""

/-- The designation the QA/QC pairing heuristic would add: the complement
of the one already present. -/
def missingDesig (dl : List String) : String :=
  if "QA APPROVED" ∈ dl then "QC PASSED" else "QA APPROVED"

/-- The NamedSignatory dict the inference block appends. -/
def inferredEntry (d desig : String) : NamedEntry :=
  { name := some d, designation := some desig }

/-- Projects the names list out of a reconciliation result. -/
def namesOf : Except String Enhanced → Option (List NamedEntry)
  | .ok e => some e.names_and_designations
  | .error _ => none

/-- Projects `expected_signatures` out of a reconciliation result. -/
def expectedOf : Except String Enhanced → Option Nat
  | .ok e => some e.expected_signatures
  | .error _ => none

/-- Did reconciliation return without raising? -/
def isOkE : Except String Enhanced → Bool
  | .ok _ => true
  | .error _ => false

/-! ## Concrete inputs used by the witnesses and counterexamples -/

/-- An embedded-image candidate on page 1. -/
def info0 : ImageInfo := { page_number := some 1 }

/-- An itemized full-signature mark. -/
def fsMark : SigInfo :=
  { type := some "full_signature", description := some "flowing cursive strokes" }

/-- An itemized initials mark. -/
def iniMark : SigInfo := { type := some "initials", description := some "two letters" }

/-- Verdict of the spec's Scenario C: is_signature true, confidence 0.8,
marks full_signature, full_signature, initials. -/
def cScenC : Classification :=
  { is_signature := some true, confidence := some (mkRat 4 5), signature_count := some 3,
    individual_signatures := some [fsMark, fsMark, iniMark] }

/-- A qualifying verdict whose itemized marks are empty while
`signature_count` is 2 -- the fallback-counting input of claim C2. -/
def cFallback2 : Classification :=
  { is_signature := some true, confidence := some (mkRat 4 5), signature_count := some 2,
    individual_signatures := some [] }

/-- A verdict with one full-signature mark at confidence exactly 0.5. -/
def cHalf : Classification :=
  { is_signature := some true, confidence := some (mkRat 1 2), signature_count := some 1,
    individual_signatures := some [fsMark] }

/-- A verdict with one full-signature mark at confidence 0.4999. -/
def cLow : Classification :=
  { is_signature := some true, confidence := some (mkRat 4999 10000),
    signature_count := some 1, individual_signatures := some [fsMark] }

/-- A verdict with a single full-signature mark at confidence 0.8. -/
def cSingle : Classification :=
  { is_signature := some true, confidence := some (mkRat 4 5), signature_count := some 1,
    individual_signatures := some [fsMark] }

/-- An itemized mark whose kind is capitalized "Full_Signature" and whose
description carries an extractable name. -/
def capMark : SigInfo :=
  { type := some "Full_Signature", description := some "Handwritten name 'LimmyT'" }

/-- A verdict containing only the capitalized mark. -/
def cCap : Classification :=
  { is_signature := some true, confidence := some (mkRat 9 10), signature_count := some 1,
    individual_signatures := some [capMark] }

/-- A detail record carrying the capitalized mark, as the reconciler
would receive it. -/
def dCap : SigDetail :=
  { signature_id := "sig_1", page_number := some 1, classification := cCap,
    confidence := mkRat 9 10, total_marks_in_image := 1, image_source := "embedded",
    signature_type := "full_signature", individual_signature_info := some capMark }

/-- Entities input with one Pass and one FAIL test record. -/
def entsFail : Entities :=
  { test_results := some [{ pass_fail := some "Pass" }, { pass_fail := some "FAIL" }] }

/-- Entities input with a single named signatory. -/
def entsOneName : Entities :=
  { names_and_designations := some [{ name := some "A. Tan", designation := some "QA APPROVED" }] }

/-- The reconciliation result of `entsOneName` with no detector report. -/
def eOneName : Enhanced :=
  mkEnhanced entsOneName none [{ name := some "A. Tan", designation := some "QA APPROVED" }]

/-- Entities with two QA-designated signatories -- the counterexample
input of claim C7. -/
def entsTwoQA : Entities :=
  { names_and_designations := some
      [{ name := some "A. Tan", designation := some "QA APPROVED" },
       { name := some "B. Ho", designation := some "QA APPROVED" }] }

/-- A detail record whose mark description names C. Wong. -/
def dWong : SigDetail :=
  { signature_id := "sig_1", page_number := some 1, classification := cSingle,
    confidence := mkRat 4 5, total_marks_in_image := 1, image_source := "embedded",
    signature_type := "full_signature",
    individual_signature_info :=
      some { type := some "full_signature", description := some "Handwritten name 'C. Wong'" } }

/-- Detector results: three signatures found, one detail naming C. Wong. -/
def srWong : SigResults :=
  { signatures_found := some 3, signature_details := some [dWong] }

/-- Scenario D detail: a full-signature mark naming A. Tan. -/
def dTan : SigDetail :=
  { signature_id := "sig_1", page_number := some 1, classification := cSingle,
    confidence := mkRat 4 5, total_marks_in_image := 1, image_source := "embedded",
    signature_type := "full_signature",
    individual_signature_info :=
      some { type := some "full_signature", description := some "Handwritten name 'A. Tan'" } }

/-- Scenario D detail: a full-signature mark naming B. Lee. -/
def dLee : SigDetail :=
  { signature_id := "sig_2", page_number := some 1, classification := cSingle,
    confidence := mkRat 4 5, total_marks_in_image := 1, image_source := "embedded",
    signature_type := "full_signature",
    individual_signature_info :=
      some { type := some "full_signature", description := some "Handwritten name 'B. Lee'" } }

/-- Scenario D detector results: two signatures, details naming
A. Tan and B. Lee. -/
def srScenD : SigResults :=
  { signatures_found := some 2, signature_details := some [dTan, dLee] }

/-- An entities input whose single signatory entry lacks the designation
key -- the counterexample input of claim C8. -/
def entsNoDesig : Entities :=
  { names_and_designations := some [{ name := some "A. Tan" }] }

/-- Detector results that force the inference block to run. -/
def srTwoFound : SigResults :=
  { signatures_found := some 2, signature_details := some [] }

/-! ## Lemmas about the Detection Aggregator -/

theorem multiLoop_found (info : ImageInfo) (c : Classification) (conf : ℚ) (fc total : Int)
    (sigs : List SigInfo) : ∀ (st : DetState) (fsIdx : Nat),
    (multiLoop info c conf fc total sigs st fsIdx).signatures_found
      = st.signatures_found + (sigs.filter isFullSig).length := by
  induction sigs with
  | nil => intro st fsIdx; simp [multiLoop]
  | cons s rest ih =>
    intro st fsIdx
    simp only [multiLoop]
    by_cases h : isFullSig s
    · rw [if_pos h, ih, List.filter_cons_of_pos h]
      simp
      omega
    · rw [if_neg h, ih, List.filter_cons_of_neg h]

theorem multiLoop_len (info : ImageInfo) (c : Classification) (conf : ℚ) (fc total : Int)
    (sigs : List SigInfo) : ∀ (st : DetState) (fsIdx : Nat),
    (multiLoop info c conf fc total sigs st fsIdx).signature_details.length
      = st.signature_details.length + (sigs.filter isFullSig).length := by
  induction sigs with
  | nil => intro st fsIdx; simp [multiLoop]
  | cons s rest ih =>
    intro st fsIdx
    simp only [multiLoop]
    by_cases h : isFullSig s
    · rw [if_pos h, ih, List.filter_cons_of_pos h]
      simp
      omega
    · rw [if_neg h, ih, List.filter_cons_of_neg h]

theorem multiLoop_errors (info : ImageInfo) (c : Classification) (conf : ℚ) (fc total : Int)
    (sigs : List SigInfo) : ∀ (st : DetState) (fsIdx : Nat),
    (multiLoop info c conf fc total sigs st fsIdx).processing_errors
      = st.processing_errors := by
  induction sigs with
  | nil => intro st fsIdx; simp [multiLoop]
  | cons s rest ih =>
    intro st fsIdx
    simp only [multiLoop]
    by_cases h : isFullSig s
    · rw [if_pos h, ih]
    · rw [if_neg h, ih]

theorem multiLoop_sibling (info : ImageInfo) (c : Classification) (conf : ℚ) (fc total : Int)
    (sigs : List SigInfo) : ∀ (st : DetState) (fsIdx : Nat),
    siblingFields (multiLoop info c conf fc total sigs st fsIdx)
      = siblingFields st ++ List.replicate (sigs.filter isFullSig).length (some fc) := by
  induction sigs with
  | nil => intro st fsIdx; simp [multiLoop]
  | cons s rest ih =>
    intro st fsIdx
    simp only [multiLoop]
    by_cases h : isFullSig s
    · rw [if_pos h, ih, List.filter_cons_of_pos h]
      simp [siblingFields, mkMultiDetail, List.replicate_succ]
    · rw [if_neg h, ih, List.filter_cons_of_neg h]

theorem filter_pos_of_any {α : Type} (p : α → Bool) (l : List α) (h : l.any p = true) :
    0 < (l.filter p).length := by
  obtain ⟨x, hx, hp⟩ := List.any_eq_true.mp h
  exact List.length_pos.mpr (List.ne_nil_of_mem (List.mem_filter.mpr ⟨hx, hp⟩))

theorem processImage_notsig (st : DetState) (idx : Nat) (info : ImageInfo)
    (c : Classification) (h : c.is_signature.getD false = false) :
    processImage st idx (.data info (.ok c)) = st := by
  simp [processImage, classify_image_as_signature, h]

theorem processImage_lowconf (st : DetState) (idx : Nat) (info : ImageInfo)
    (c : Classification) (h : c.confidence.getD 0 < mkRat 1 2) :
    processImage st idx (.data info (.ok c)) = st := by
  simp only [processImage, classify_image_as_signature]
  split
  · split
    all_goals rw [if_neg (by rintro ⟨h1, -⟩; exact absurd h1 (not_le.mpr h))]
  · rfl

theorem processImage_sig_found (st : DetState) (idx : Nat) (info : ImageInfo)
    (c : Classification)
    (hsig : c.is_signature.getD false = true)
    (hconf : mkRat 1 2 ≤ c.confidence.getD 0)
    (hfull : (c.individual_signatures.getD []).any isFullSig = true) :
    (processImage st idx (.data info (.ok c))).signatures_found
      = st.signatures_found + ((c.individual_signatures.getD []).filter isFullSig).length := by
  have hk : 0 < ((c.individual_signatures.getD []).filter isFullSig).length :=
    filter_pos_of_any _ _ hfull
  have hne : ¬(c.individual_signatures.getD [] = [] ∧ 0 < c.signature_count.getD 1) := by
    rintro ⟨he, -⟩
    rw [he] at hfull
    simp at hfull
  simp only [processImage, classify_image_as_signature]
  rw [if_pos hsig, if_neg hne, if_pos ⟨hconf, (by exact_mod_cast hk : (0 : Int) < _)⟩]
  by_cases h2 : 1 < ((c.individual_signatures.getD []).filter isFullSig).length
  · rw [if_pos (by exact_mod_cast h2 : (1 : Int) < _)]
    exact multiLoop_found _ _ _ _ _ _ _ _
  · have hk1 : ((c.individual_signatures.getD []).filter isFullSig).length = 1 := by omega
    rw [if_neg (by exact_mod_cast h2), if_pos (by exact_mod_cast hk1 : _ = (1 : Int)), hk1]

theorem processImage_delta (st : DetState) (idx : Nat) (ev : ImgEvent) :
    (processImage st idx ev).signatures_found + st.signature_details.length
      = st.signatures_found + (processImage st idx ev).signature_details.length := by
  cases ev with
  | noData => rfl
  | raised msg => rfl
  | data info outcome =>
    cases outcome with
    | fail msg => rfl
    | ok c =>
      simp only [processImage, classify_image_as_signature]
      split
      · split
        all_goals
          split
          · split
            · rw [multiLoop_found, multiLoop_len]
              omega
            · split
              · simp
                omega
              · rfl
          · rfl
      · rfl

theorem processImage_errors_mono (st : DetState) (idx : Nat) (ev : ImgEvent) :
    ∃ es, (processImage st idx ev).processing_errors = st.processing_errors ++ es := by
  cases ev with
  | noData => exact ⟨[], by simp [processImage]⟩
  | raised msg => exact ⟨_, rfl⟩
  | data info outcome =>
    cases outcome with
    | fail msg => exact ⟨[], by simp [processImage, classify_image_as_signature]⟩
    | ok c =>
      refine ⟨[], ?_⟩
      simp only [processImage, classify_image_as_signature, List.append_nil]
      split
      · split
        all_goals
          split
          · split
            · rw [multiLoop_errors]
            · split
              · rfl
              · rfl
          · rfl
      · rfl

theorem runImages_inv (events : List ImgEvent) : ∀ (idx : Nat) (st : DetState),
    st.signatures_found = st.signature_details.length →
    (runImages events idx st).signatures_found
      = (runImages events idx st).signature_details.length := by
  induction events with
  | nil => intro idx st h; exact h
  | cons ev rest ih =>
    intro idx st h
    apply ih
    have := processImage_delta st idx ev
    omega

/-! ## Lemmas about the Entity Reconciler -/

theorem except_pure_eq {α : Type} (a : α) : (pure a : Except String α) = Except.ok a := rfl

theorem except_ok_bind {α β : Type} (a : α) (f : α → Except String β) :
    (Except.ok a >>= f) = f a := rfl

theorem except_error_bind {α β : Type} (msg : String) (f : α → Except String β) :
    ((Except.error msg : Except String α) >>= f) = Except.error msg := rfl

theorem except_bind_ok {α β : Type} {x : Except String α} {f : α → Except String β} {b : β}
    (h : (x >>= f) = Except.ok b) : ∃ a, x = Except.ok a ∧ f a = Except.ok b := by
  cases x with
  | error msg => exact Except.noConfusion (show Except.error msg = Except.ok b from h)
  | ok a => exact ⟨a, rfl, h⟩

theorem appendFirstUnmatched_sub (names : List NamedEntry) (desig : String) :
    ∀ (dn : List String) (ns : List NamedEntry),
      appendFirstUnmatched names desig dn = .ok ns →
      ns = names ∨ ∃ x, ns = names ++ [x] := by
  intro dn
  induction dn with
  | nil =>
    intro ns h
    simp only [appendFirstUnmatched] at h
    exact Or.inl (Except.ok.inj (show Except.ok names = Except.ok ns from h)).symm
  | cons d rest ih =>
    intro ns h
    simp only [appendFirstUnmatched] at h
    obtain ⟨m, -, h2⟩ := except_bind_ok h
    cases m with
    | true =>
      rw [if_pos rfl] at h2
      exact ih ns h2
    | false =>
      rw [if_neg Bool.false_ne_true] at h2
      exact Or.inr ⟨_, (Except.ok.inj
        (show Except.ok (names ++ [{ name := some d, designation := some desig }])
          = Except.ok ns from h2)).symm⟩

theorem inferNames_sub (names : List NamedEntry) (dn : List String) (ns : List NamedEntry)
    (h : inferNames names dn = .ok ns) : ∃ t, ns = names ++ t ∧ t.length ≤ 1 := by
  have conv1 : ns = names → ∃ t, ns = names ++ t ∧ t.length ≤ 1 := by
    intro he
    exact ⟨[], by simp [he], by simp⟩
  have conv2 : (ns = names ∨ ∃ x, ns = names ++ [x]) →
      ∃ t, ns = names ++ t ∧ t.length ≤ 1 := by
    rintro (he | ⟨x, he⟩)
    · exact conv1 he
    · exact ⟨[x], he, by simp⟩
  simp only [inferNames] at h
  obtain ⟨existing, -, h2⟩ := except_bind_ok h
  split at h2
  · split at h2
    · exact conv2 (appendFirstUnmatched_sub names "QC PASSED" dn ns h2)
    · exact conv1 (Except.ok.inj (show Except.ok names = Except.ok ns from h2)).symm
  · split at h2
    · split at h2
      · exact conv2 (appendFirstUnmatched_sub names "QA APPROVED" dn ns h2)
      · exact conv1 (Except.ok.inj (show Except.ok names = Except.ok ns from h2)).symm
    · split at h2
      · obtain ⟨remaining, -, h3⟩ := except_bind_ok h2
        cases remaining with
        | nil =>
          exact conv1 (Except.ok.inj (show Except.ok names = Except.ok ns from h3)).symm
        | cons r rs =>
          obtain ⟨hasQA, -, h4⟩ := except_bind_ok h3
          cases hasQA with
          | true =>
            rw [if_pos rfl] at h4
            exact conv2 (Or.inr ⟨_, (Except.ok.inj (show _ = Except.ok ns from h4)).symm⟩)
          | false =>
            rw [if_neg Bool.false_ne_true] at h4
            obtain ⟨hasQC, -, h5⟩ := except_bind_ok h4
            cases hasQC with
            | true =>
              rw [if_pos rfl] at h5
              exact conv2 (Or.inr ⟨_, (Except.ok.inj (show _ = Except.ok ns from h5)).symm⟩)
            | false =>
              rw [if_neg Bool.false_ne_true] at h5
              exact conv2 (Or.inr ⟨_, (Except.ok.inj (show _ = Except.ok ns from h5)).symm⟩)
      · exact conv1 (Except.ok.inj (show Except.ok names = Except.ok ns from h2)).symm

theorem namesStep_sub (names0 : List NamedEntry) (actual : Int) (sig : Option SigResults)
    (ns : List NamedEntry) (h : namesStep names0 actual sig = .ok ns) :
    ∃ t, ns = names0 ++ t ∧ t.length ≤ 1 := by
  have conv1 : Except.ok (ε := String) names0 = Except.ok ns →
      ∃ t, ns = names0 ++ t ∧ t.length ≤ 1 := by
    intro he
    exact ⟨[], by simp [(Except.ok.inj he).symm], by simp⟩
  cases sig with
  | none => exact conv1 (show Except.ok names0 = Except.ok ns from h)
  | some sr =>
    simp only [namesStep] at h
    cases hsd : sr.signature_details with
    | none =>
      rw [hsd] at h
      exact conv1 (show Except.ok names0 = Except.ok ns from h)
    | some ds =>
      rw [hsd] at h
      simp only [namesStepDetails] at h
      split at h
      · exact inferNames_sub names0 (detectedNames ds) ns h
      · exact conv1 (show Except.ok names0 = Except.ok ns from h)

theorem enhance_ok_elim (ents : Entities) (sig : Option SigResults) (e : Enhanced)
    (h : enhance_entities_with_signature_validation ents sig = .ok e) :
    ∃ ns, e = mkEnhanced ents sig ns
      ∧ ∃ t, ns = ents.names_and_designations.getD [] ++ t ∧ t.length ≤ 1 := by
  simp only [enhance_entities_with_signature_validation] at h
  obtain ⟨ns, hns, h2⟩ := except_bind_ok h
  refine ⟨ns, ?_, namesStep_sub _ _ _ _ hns⟩
  exact (Except.ok.inj (show Except.ok (mkEnhanced ents sig ns) = Except.ok e from h2)).symm

theorem checkComplyLoop_false_iff (l : List TestResult) :
    checkComplyLoop l = false
      ↔ ∃ r ∈ l, pyLower (r.pass_fail.getD "") = "fail" := by
  induction l with
  | nil => simp [checkComplyLoop]
  | cons r rest ih =>
    simp only [checkComplyLoop]
    by_cases h : pyLower (r.pass_fail.getD "") = "fail"
    · simp [h]
    · simp [h, ih]

/-! ## The claims -/

/-- Claim C1: a classified image whose verdict has `is_signature = true`
and at least one itemized mark counted as a full signature contributes to
`signatures_found` if and only if the verdict's confidence is at least
0.5 (inclusive threshold); a verdict with `is_signature` false, or with
confidence below 0.5, leaves the whole accumulator unchanged regardless
of its marks. -/
theorem C1_confidence_threshold (st : DetState) (idx : Nat) (info : ImageInfo)
    (c : Classification) :
    (c.is_signature = some true →
      (c.individual_signatures.getD []).any isFullSig = true →
        (st.signatures_found < (processImage st idx (.data info (.ok c))).signatures_found
          ↔ mkRat 1 2 ≤ c.confidence.getD 0))
    ∧ (c.is_signature.getD false = false →
        processImage st idx (.data info (.ok c)) = st)
    ∧ (c.confidence.getD 0 < mkRat 1 2 →
        processImage st idx (.data info (.ok c)) = st) := by
  refine ⟨?_, processImage_notsig st idx info c, processImage_lowconf st idx info c⟩
  intro hsig hfull
  constructor
  · intro hlt
    by_contra hc
    rw [processImage_lowconf st idx info c (not_le.mp hc)] at hlt
    exact lt_irrefl _ hlt
  · intro hconf
    rw [processImage_sig_found st idx info c (by rw [hsig]; rfl) hconf hfull]
    have := filter_pos_of_any _ _ hfull
    omega

/-- Witness for C1: at confidence exactly 0.5 the image with one
full-signature mark is counted; at confidence 0.4999 the accumulator is
untouched. -/
theorem C1_confidence_threshold_witness :
    (initState.signatures_found
        < (processImage initState 0 (.data info0 (.ok cHalf))).signatures_found)
      ∧ processImage initState 0 (.data info0 (.ok cLow)) = initState := by
  constructor
  · exact ((C1_confidence_threshold initState 0 info0 cHalf).1 rfl (by decide)).mpr (by decide)
  · exact (C1_confidence_threshold initState 0 info0 cLow).2.2 (by decide)

/-- Claim C2 (code-bug evidence): a qualifying verdict
(`is_signature = true`, confidence 0.8) with an empty itemized-marks list
and `signature_count = 2` is run through the fallback policy, which sets
the internal full-signature count to 2, yet the detection loop adds
nothing: `signatures_found` stays 0 and no record is appended, because
the multi-signature branch iterates the empty itemized list. -/
theorem C2_fallback_multi_eval :
    (processImage initState 0 (.data info0 (.ok cFallback2))).signatures_found = 0
      ∧ (processImage initState 0 (.data info0 (.ok cFallback2))).signature_details = [] :=
  ⟨rfl, rfl⟩

/-- Claim C3: for every completed detection run -- whatever the sequence
of candidates, verdicts, per-image failures, fallback counting and
multi-signature images, and whether or not the surrounding workflow
failed at the end -- `signatures_found` equals the number of entries in
`signature_details`. -/
theorem C3_count_matches_records (events : List ImgEvent) (workflowFailure : Option String) :
    (detect_signatures_in_pdf events workflowFailure).signatures_found
      = (detect_signatures_in_pdf events workflowFailure).signature_details.length := by
  have h := runImages_inv events 0 initState rfl
  cases workflowFailure with
  | none => exact h
  | some msg => exact h

/-- Counterexample to claim C4 as stated: a candidate whose classifier
call fails with a transport error produces no entry in
`processing_errors` at all (the claim asserts a descriptive string is
appended for that candidate). -/
theorem C4_counterexample :
    (detect_signatures_in_pdf [.data info0 (.fail "Connection aborted")] none).processing_errors
        = []
      ∧ (detect_signatures_in_pdf
          [.data info0 (.fail "Connection aborted")] none).signatures_found = 0 :=
  ⟨rfl, rfl⟩

/-- Claim C4 as amended: a classifier transport/parse failure is caught
inside `classify_image_as_signature` and converted into a verdict with
`is_signature` false, so the aggregator continues with the candidate
skipped and the whole accumulator -- counts, records and
`processing_errors` alike -- unchanged; `processing_errors` receives a
descriptive string only for an exception raised in the aggregator's own
per-image loop body, which likewise contributes nothing to the counts. -/
theorem C4_failure_handling (st : DetState) (idx : Nat) (info : ImageInfo) (msg : String) :
    processImage st idx (.data info (.fail msg)) = st
      ∧ (processImage st idx (.raised msg)).processing_errors
          = st.processing_errors
              ++ ["Error processing image " ++ toString (idx + 1) ++ ": " ++ msg]
      ∧ (processImage st idx (.raised msg)).signatures_found = st.signatures_found
      ∧ (processImage st idx (.raised msg)).signature_details = st.signature_details :=
  ⟨rfl, rfl, rfl, rfl⟩

/-- Counterexample to claim C9 as stated: an image with a single
full-signature mark (is_signature true, confidence 0.8) is counted and
materializes a record, but that record carries no
`total_full_signatures_in_image` field at all -- the single-signature
branch omits the key, so not every record carries a sibling count. -/
theorem C9_counterexample :
    (processImage initState 0 (.data info0 (.ok cSingle))).signatures_found = 1
      ∧ siblingFields (processImage initState 0 (.data info0 (.ok cSingle))) = [none] :=
  ⟨rfl, rfl⟩

/-- Claim C9 as amended: when an image's verdict qualifies and carries
more than one full-signature mark among its itemized marks, every record
materialized for it carries `total_full_signatures_in_image` equal to the
number of co-occurring full-signature marks, and `signatures_found` grows
by that same number (records of single-signature images omit the field,
per the counterexample). -/
theorem C9_sibling_count_multi (st : DetState) (idx : Nat) (info : ImageInfo)
    (c : Classification) (sigs : List SigInfo)
    (hsig : c.is_signature = some true)
    (hs : c.individual_signatures = some sigs)
    (hconf : mkRat 1 2 ≤ c.confidence.getD 0)
    (hfc : 1 < (sigs.filter isFullSig).length) :
    siblingFields (processImage st idx (.data info (.ok c)))
        = siblingFields st
            ++ List.replicate (sigs.filter isFullSig).length
                (some ((sigs.filter isFullSig).length : Int))
      ∧ (processImage st idx (.data info (.ok c))).signatures_found
          = st.signatures_found + (sigs.filter isFullSig).length := by
  have hgd : c.individual_signatures.getD [] = sigs := by rw [hs]; rfl
  have hne : ¬(c.individual_signatures.getD [] = [] ∧ 0 < c.signature_count.getD 1) := by
    rintro ⟨he, -⟩
    rw [hgd] at he
    rw [he] at hfc
    simp at hfc
  simp only [processImage, classify_image_as_signature]
  rw [if_pos (by rw [hsig]; rfl), if_neg hne, hgd,
    if_pos ⟨hconf, (by exact_mod_cast Nat.lt_of_lt_of_le Nat.zero_lt_one hfc.le
      : (0 : Int) < _)⟩,
    if_pos (by exact_mod_cast hfc : (1 : Int) < _)]
  exact ⟨multiLoop_sibling _ _ _ _ _ _ _ _, multiLoop_found _ _ _ _ _ _ _ _⟩

/-- Witness for C9 (the spec's Scenario C): one image with verdict
is_signature true, confidence 0.8 and marks full_signature,
full_signature, initials yields two records, both carrying a sibling
count of 2, and `signatures_found` 2. -/
theorem C9_sibling_count_multi_witness :
    siblingFields (processImage initState 0 (.data info0 (.ok cScenC))) = [some 2, some 2]
      ∧ (processImage initState 0 (.data info0 (.ok cScenC))).signatures_found = 2 := by
  have h := C9_sibling_count_multi initState 0 info0 cScenC [fsMark, fsMark, iniMark]
    rfl rfl (by decide) (by decide)
  exact ⟨by rw [h.1]; rfl, by rw [h.2]; rfl⟩

/-- Claim C10: mark-kind matching is case-insensitive in the Detection
Aggregator but case-sensitive in the Entity Reconciler -- a qualifying
verdict whose only itemized mark has kind "Full_Signature" is counted
toward `signatures_found`, yet a report record carrying that mark
contributes no detected name during reconciliation, whatever its
description, because the reconciler compares the stored type for exact
equality with the lowercase string "full_signature". -/
theorem C10_case_sensitivity (st : DetState) (idx : Nat) (info : ImageInfo)
    (conf : ℚ) (si : SigInfo) (c : Classification) (d : SigDetail)
    (hty : si.type = some "Full_Signature")
    (hc : c = { is_signature := some true, confidence := some conf,
                signature_count := some 1, individual_signatures := some [si],
                error := none })
    (hconf : mkRat 1 2 ≤ conf)
    (hd : d.individual_signature_info = some si) :
    (processImage st idx (.data info (.ok c))).signatures_found = st.signatures_found + 1
      ∧ (processImage st idx (.data info (.ok c))).signature_details.length
          = st.signature_details.length + 1
      ∧ detectedNames [d] = [] := by
  have hfull : isFullSig si = true := by
    simp [isFullSig, hty]
    rfl
  have hfound : (processImage st idx (.data info (.ok c))).signatures_found
      = st.signatures_found + 1 := by
    have hsig : c.is_signature.getD false = true := by rw [hc]; rfl
    have hconf2 : mkRat 1 2 ≤ c.confidence.getD 0 := by rw [hc]; exact hconf
    have hany : (c.individual_signatures.getD []).any isFullSig = true := by
      rw [hc]
      simp [hfull]
    rw [processImage_sig_found st idx info c hsig hconf2 hany]
    have hlen : ((c.individual_signatures.getD []).filter isFullSig).length = 1 := by
      rw [hc]
      simp [hfull]
    omega
  refine ⟨hfound, ?_, ?_⟩
  · have hdelta := processImage_delta st idx (.data info (.ok c))
    omega
  · have hneq : ¬(si.type = some "full_signature") := by
      rw [hty]
      intro hx
      exact absurd (Option.some.inj hx) (by decide)
    simp [detectedNames, detectedNamesStep, hd, hneq]

/-- Witness for C10: the capitalized mark "Full_Signature" with the
description "Handwritten name 'LimmyT'" is counted by the aggregator, and
the reconciler extracts no name from the record carrying it. -/
theorem C10_case_sensitivity_witness :
    (processImage initState 0 (.data info0 (.ok cCap))).signatures_found = 1
      ∧ (processImage initState 0 (.data info0 (.ok cCap))).signature_details.length = 1
      ∧ detectedNames [dCap] = [] := by
  have h := C10_case_sensitivity initState 0 info0 (mkRat 9 10) capMark cCap dCap
    rfl rfl (by decide) rfl
  exact h

/-- Claim C5: for every reconciliation call that returns,
`results_comply` is "No" if and only if some test record's `pass_fail`
lowercases to "fail"; otherwise -- including when `test_results` is empty
or absent -- it is "Yes", independently of the signature state (the
detector results are universally quantified and do not appear in the
condition). -/
theorem C5_results_comply (ents : Entities) (sig : Option SigResults) (e : Enhanced)
    (h : enhance_entities_with_signature_validation ents sig = .ok e) :
    (e.results_comply = "No"
        ↔ ∃ r ∈ ents.test_results.getD [], pyLower (r.pass_fail.getD "") = "fail")
      ∧ ((¬∃ r ∈ ents.test_results.getD [], pyLower (r.pass_fail.getD "") = "fail") →
          e.results_comply = "Yes") := by
  obtain ⟨ns, he, -⟩ := enhance_ok_elim ents sig e h
  subst he
  by_cases hf : ∃ r ∈ ents.test_results.getD [], pyLower (r.pass_fail.getD "") = "fail"
  · have hc : checkComplyLoop (ents.test_results.getD []) = false :=
      (checkComplyLoop_false_iff _).mpr hf
    have hne : ¬(ents.test_results.getD [] = []) := by
      obtain ⟨r, hr, -⟩ := hf
      exact List.ne_nil_of_mem hr
    have hno : (mkEnhanced ents sig ns).results_comply = "No" := by
      simp only [mkEnhanced]
      rw [if_neg]
      rintro (h1 | h2)
      · exact hne h1
      · rw [hc] at h2
        cases h2
    exact ⟨by rw [hno]; exact iff_of_true rfl hf, fun hcon => absurd hf hcon⟩
  · have hc : checkComplyLoop (ents.test_results.getD []) = true := by
      cases hcc : checkComplyLoop (ents.test_results.getD []) with
      | false => exact absurd ((checkComplyLoop_false_iff _).mp hcc) hf
      | true => rfl
    have hyes : (mkEnhanced ents sig ns).results_comply = "Yes" := by
      simp only [mkEnhanced]
      rw [if_pos (Or.inr hc)]
    refine ⟨?_, fun _ => hyes⟩
    rw [hyes]
    exact iff_of_false (by decide) hf

/-- Witness for C5: entities with test results Pass and FAIL reconcile
(with no detector report) to `results_comply` "No". -/
theorem C5_results_comply_witness :
    (mkEnhanced entsFail none []).results_comply = "No" := by
  have h := C5_results_comply entsFail none (mkEnhanced entsFail none []) rfl
  exact h.1.mpr ⟨{ pass_fail := some "FAIL" }, by decide, by decide⟩

/-- Claim C6: the reconciled `names_and_designations` list is the input
list, unchanged and in order, followed by at most one appended inferred
entry, and `expected_signatures` equals the length of that (possibly
augmented) list when the call returns. -/
theorem C6_append_at_most_one (ents : Entities) (sig : Option SigResults) (e : Enhanced)
    (h : enhance_entities_with_signature_validation ents sig = .ok e) :
    ∃ t, e.names_and_designations = ents.names_and_designations.getD [] ++ t
      ∧ t.length ≤ 1
      ∧ e.expected_signatures = e.names_and_designations.length := by
  obtain ⟨ns, he, t, hns, hlen⟩ := enhance_ok_elim ents sig e h
  subst he
  exact ⟨t, by simp only [mkEnhanced]; exact hns, hlen, by simp only [mkEnhanced]⟩

/-- Witness for C6: a single-entry names list with no detector report
reconciles with `expected_signatures` equal to the list's length. -/
theorem C6_append_at_most_one_witness :
    eOneName.expected_signatures = eOneName.names_and_designations.length := by
  obtain ⟨t, -, -, h3⟩ := C6_append_at_most_one entsOneName none eOneName rfl
  exact h3

theorem getName_ok (it : NamedEntry) (h : it.name.isSome) :
    ∃ s, getName it = .ok s := by
  cases hn : it.name with
  | none => rw [hn] at h; simp at h
  | some s => exact ⟨s, by simp [getName, hn, except_pure_eq]⟩

theorem getDesignation_ok (it : NamedEntry) (h : it.designation.isSome) :
    ∃ s, getDesignation it = .ok s := by
  cases hn : it.designation with
  | none => rw [hn] at h; simp at h
  | some s => exact ⟨s, by simp [getDesignation, hn, except_pure_eq]⟩

theorem nameMatches_ok (dn : String) (it : NamedEntry) (h : it.name.isSome) :
    ∃ b, nameMatches dn it = .ok b := by
  obtain ⟨s, hs⟩ := getName_ok it h
  exact ⟨containsL (pyLower dn).toList (pyLower s).toList,
    by simp [nameMatches, hs, except_ok_bind, except_pure_eq]⟩

theorem desigContains_ok (tag : String) (it : NamedEntry) (h : it.designation.isSome) :
    ∃ b, desigContains tag it = .ok b := by
  obtain ⟨s, hs⟩ := getDesignation_ok it h
  exact ⟨containsL tag.toList s.toList,
    by simp [desigContains, hs, except_ok_bind, except_pure_eq]⟩

theorem pyAny_ok {α : Type} (p : α → Except String Bool) (l : List α)
    (h : ∀ x ∈ l, ∃ b, p x = .ok b) : ∃ b, pyAny p l = .ok b := by
  induction l with
  | nil => exact ⟨false, rfl⟩
  | cons x xs ih =>
    obtain ⟨b, hb⟩ := h x (by simp)
    obtain ⟨b2, hb2⟩ := ih fun y hy => h y (by simp [hy])
    cases b with
    | true => exact ⟨true, by simp [pyAny, hb, except_ok_bind, except_pure_eq]⟩
    | false => exact ⟨b2, by simp [pyAny, hb, except_ok_bind, hb2]⟩

theorem pyFilter_ok {α : Type} (p : α → Except String Bool) (l : List α)
    (h : ∀ x ∈ l, ∃ b, p x = .ok b) : ∃ r, pyFilter p l = .ok r := by
  induction l with
  | nil => exact ⟨[], rfl⟩
  | cons x xs ih =>
    obtain ⟨b, hb⟩ := h x (by simp)
    obtain ⟨r, hr⟩ := ih fun y hy => h y (by simp [hy])
    cases b with
    | true => exact ⟨x :: r, by simp [pyFilter, hb, except_ok_bind, hr, except_pure_eq]⟩
    | false => exact ⟨r, by simp [pyFilter, hb, except_ok_bind, hr, except_pure_eq]⟩

theorem pyMapDesignations_ok (names : List NamedEntry)
    (h : ∀ it ∈ names, it.designation.isSome) :
    ∃ ds, pyMapDesignations names = .ok ds := by
  induction names with
  | nil => exact ⟨[], rfl⟩
  | cons it rest ih =>
    obtain ⟨d, hd⟩ := getDesignation_ok it (h it (by simp))
    obtain ⟨ds, hds⟩ := ih fun y hy => h y (by simp [hy])
    exact ⟨d :: ds, by simp [pyMapDesignations, hd, except_ok_bind, hds, except_pure_eq]⟩

theorem inferNames_ok (names : List NamedEntry) (dn : List String)
    (h : ∀ it ∈ names, it.name.isSome ∧ it.designation.isSome) :
    ∃ ns, inferNames names dn = .ok ns := by
  obtain ⟨existing, hex⟩ := pyMapDesignations_ok names fun it hit => (h it hit).2
  have hafu : ∀ desig, ∃ ns, appendFirstUnmatched names desig dn = .ok ns := by
    intro desig
    induction dn with
    | nil => exact ⟨names, rfl⟩
    | cons d rest ih =>
      obtain ⟨b, hb⟩ := pyAny_ok (nameMatches d) names
        fun it hit => nameMatches_ok d it (h it hit).1
      obtain ⟨ns, hns⟩ := ih
      cases b with
      | true => exact ⟨ns, by simp [appendFirstUnmatched, hb, except_ok_bind, hns]⟩
      | false =>
        exact ⟨names ++ [{ name := some d, designation := some desig }],
          by simp [appendFirstUnmatched, hb, except_ok_bind, except_pure_eq]⟩
  simp only [inferNames, hex, except_ok_bind]
  split
  · split
    · exact hafu "QC PASSED"
    · exact ⟨names, rfl⟩
  · split
    · split
      · exact hafu "QA APPROVED"
      · exact ⟨names, rfl⟩
    · split
      · obtain ⟨remaining, hrem⟩ := pyFilter_ok
          (fun nm => do
            let m ← pyAny (nameMatches nm) names
            pure (!m)) dn
          (by
            intro nm hnm
            obtain ⟨b, hb⟩ := pyAny_ok (nameMatches nm) names
              fun it hit => nameMatches_ok nm it (h it hit).1
            exact ⟨!b, by simp [hb, except_ok_bind, except_pure_eq]⟩)
        simp only [hrem, except_ok_bind]
        cases remaining with
        | nil => exact ⟨names, rfl⟩
        | cons r rs =>
          obtain ⟨qa, hqa⟩ := pyAny_ok (desigContains "QA") names
            fun it hit => desigContains_ok "QA" it (h it hit).2
          simp only [hqa, except_ok_bind]
          cases qa with
          | true =>
            exact ⟨names ++ [{ name := some r, designation := some "QC PASSED" }],
              by rw [if_pos rfl]; exact except_pure_eq _⟩
          | false =>
            rw [if_neg Bool.false_ne_true]
            obtain ⟨qc, hqc⟩ := pyAny_ok (desigContains "QC") names
              fun it hit => desigContains_ok "QC" it (h it hit).2
            simp only [hqc, except_ok_bind]
            cases qc with
            | true =>
              exact ⟨names ++ [{ name := some r, designation := some "QA APPROVED" }],
                by rw [if_pos rfl]; exact except_pure_eq _⟩
            | false =>
              exact ⟨names ++ [{ name := some r, designation := some "SIGNATORY" }],
                by rw [if_neg Bool.false_ne_true]; exact except_pure_eq _⟩
      · exact ⟨names, rfl⟩

theorem namesStep_ok (names0 : List NamedEntry) (actual : Int) (sig : Option SigResults)
    (h : ∀ it ∈ names0, it.name.isSome ∧ it.designation.isSome) :
    ∃ ns, namesStep names0 actual sig = .ok ns := by
  cases sig with
  | none => exact ⟨names0, rfl⟩
  | some sr =>
    simp only [namesStep]
    cases hsd : sr.signature_details with
    | none => exact ⟨names0, rfl⟩
    | some ds =>
      simp only [namesStepDetails]
      split
      · exact inferNames_ok names0 (detectedNames ds) h
      · exact ⟨names0, rfl⟩

/-- Counterexample to claim C8 as stated: a well-formed entities mapping
whose single signatory entry merely lacks its `designation` field makes
reconciliation raise (a KeyError from the direct subscript
`item["designation"]` inside the inference block), even though the claim
says every field lookup falls back to a default and only a non-mapping
input can fail. -/
theorem C8_counterexample :
    enhance_entities_with_signature_validation entsNoDesig (some srTwoFound)
      = .error "KeyError: designation" := rfl

/-- Claim C8 as amended: the reconciler's top-level lookups (document
fields, names list, counts, test results) all fall back to explicit
defaults, and reconciliation never raises provided every signatory entry
carries both its `name` and `designation` fields; an entry missing either
can raise a lookup error when the name-inference path is entered (the
structural not-a-mapping failure of the original claim is outside this
embedding, which already receives a mapping). -/
theorem C8_no_raise_when_fields_present (ents : Entities) (sig : Option SigResults)
    (h : ∀ it ∈ ents.names_and_designations.getD [],
      it.name.isSome ∧ it.designation.isSome) :
    ∃ e, enhance_entities_with_signature_validation ents sig = .ok e := by
  obtain ⟨ns, hns⟩ := namesStep_ok (ents.names_and_designations.getD []) (actualOf sig) sig h
  exact ⟨mkEnhanced ents sig ns,
    by simp only [enhance_entities_with_signature_validation, hns, except_ok_bind,
      except_pure_eq]⟩

/-- Witness for C8: with a complete signatory entry and no detector
report, reconciliation returns successfully. -/
theorem C8_no_raise_when_fields_present_witness :
    isOkE (enhance_entities_with_signature_validation entsOneName none) = true := by
  obtain ⟨e, he⟩ := C8_no_raise_when_fields_present entsOneName none (by decide)
  rw [he]
  rfl

theorem pyMapDesignations_eq (names : List NamedEntry)
    (h : ∀ it ∈ names, it.designation.isSome) :
    pyMapDesignations names = .ok (designationsOf names) := by
  induction names with
  | nil => rfl
  | cons it rest ih =>
    have hd := h it (by simp)
    cases hds : it.designation with
    | none => rw [hds] at hd; simp at hd
    | some dg =>
      have hget : getDesignation it = .ok dg := by
        simp [getDesignation, hds, except_pure_eq]
      simp [pyMapDesignations, hget, except_ok_bind,
        ih fun y hy => h y (by simp [hy]), except_pure_eq, designationsOf, hds]

theorem nameMatches_eq (dn : String) (it : NamedEntry) (h : it.name.isSome) :
    nameMatches dn it = .ok (matchesB dn it) := by
  cases hn : it.name with
  | none => rw [hn] at h; simp at h
  | some nm =>
    simp [nameMatches, getName, hn, except_ok_bind, except_pure_eq, matchesB]

theorem pyAny_eq {α : Type} (p : α → Except String Bool) (q : α → Bool) (l : List α)
    (h : ∀ x ∈ l, p x = .ok (q x)) : pyAny p l = .ok (l.any q) := by
  induction l with
  | nil => rfl
  | cons x xs ih =>
    simp only [pyAny, h x (by simp), except_ok_bind]
    by_cases hq : q x = true
    · simp [hq, except_pure_eq]
    · simp [hq, ih fun y hy => h y (by simp [hy]), except_pure_eq,
        Bool.not_eq_true _ ▸ hq]

theorem appendFirstUnmatched_eq (names : List NamedEntry) (desig : String)
    (h : ∀ it ∈ names, it.name.isSome) :
    ∀ dn, appendFirstUnmatched names desig dn
      = .ok (applyFirst names desig (firstUnmatched names dn)) := by
  intro dn
  induction dn with
  | nil => rfl
  | cons d rest ih =>
    have hany : pyAny (nameMatches d) names = .ok (names.any (matchesB d)) :=
      pyAny_eq _ _ _ fun it hit => nameMatches_eq d it (h it hit)
    simp only [appendFirstUnmatched, hany, except_ok_bind]
    by_cases hm : names.any (matchesB d) = true
    · rw [if_pos hm, ih]
      simp [firstUnmatched, List.find?_cons, hm]
    · rw [if_neg hm]
      simp only [firstUnmatched, List.find?_cons]
      rw [Bool.not_eq_true] at hm
      simp [hm, applyFirst, except_pure_eq]

/-- Counterexample to claim C7 as stated: two existing entries both
designated "QA APPROVED" (so "QA APPROVED" present, "QC PASSED" absent),
three signatures detected against two expected, and a detected name
"C. Wong" that matches no existing entry -- every condition of the claim
holds, yet the reconciler appends nothing, because the code additionally
requires more detected names than existing entries (one is not more than
two). -/
theorem C7_counterexample :
    namesOf (enhance_entities_with_signature_validation entsTwoQA (some srWong))
        = some [{ name := some "A. Tan", designation := some "QA APPROVED" },
                { name := some "B. Ho", designation := some "QA APPROVED" }]
      ∧ expectedOf (enhance_entities_with_signature_validation entsTwoQA (some srWong))
        = some 2 := ⟨rfl, rfl⟩

/-- Claim C7 as amended: when the detected signature count exceeds the
existing entries, exactly one of the designations "QA APPROVED" /
"QC PASSED" is present among them, the number of detected names also
exceeds the number of existing entries (the gate the original claim
omits), and some detected name is not a case-insensitive substring of
any existing name, the reconciler appends exactly one entry pairing the
missing designation with the first unmatched detected name, and
`expected_signatures` becomes the original length plus one. -/
theorem C7_amended_inference (ents : Entities) (sr : SigResults)
    (names0 : List NamedEntry) (ds : List SigDetail) (d : String)
    (hn : ents.names_and_designations = some names0)
    (hds : sr.signature_details = some ds)
    (hf : ∀ it ∈ names0, it.name.isSome ∧ it.designation.isSome)
    (hact : (names0.length : Int) < sr.signatures_found.getD 0)
    (hx : ("QA APPROVED" ∈ designationsOf names0 ∧ "QC PASSED" ∉ designationsOf names0)
        ∨ ("QC PASSED" ∈ designationsOf names0 ∧ "QA APPROVED" ∉ designationsOf names0))
    (hlen : names0.length < (detectedNames ds).length)
    (hfind : firstUnmatched names0 (detectedNames ds) = some d) :
    namesOf (enhance_entities_with_signature_validation ents (some sr))
        = some (names0 ++ [inferredEntry d (missingDesig (designationsOf names0))])
      ∧ expectedOf (enhance_entities_with_signature_validation ents (some sr))
        = some (names0.length + 1) := by
  have hget : ents.names_and_designations.getD [] = names0 := by rw [hn]; rfl
  have hdesig : pyMapDesignations names0 = .ok (designationsOf names0) :=
    pyMapDesignations_eq names0 fun it hit => (hf it hit).2
  have happend : ∀ desig, appendFirstUnmatched names0 desig (detectedNames ds)
      = .ok (names0 ++ [inferredEntry d desig]) := by
    intro desig
    rw [appendFirstUnmatched_eq names0 desig (fun it hit => (hf it hit).1), hfind]
    rfl
  have hinf : inferNames names0 (detectedNames ds)
      = .ok (names0 ++ [inferredEntry d (missingDesig (designationsOf names0))]) := by
    rcases hx with ⟨hqa, hqc⟩ | ⟨hqc, hqa⟩
    · simp only [inferNames, hdesig, except_ok_bind]
      rw [if_pos ⟨hqa, hqc⟩, if_pos hlen, happend]
      simp only [missingDesig, if_pos hqa]
    · simp only [inferNames, hdesig, except_ok_bind]
      rw [if_neg fun hc => hqa hc.1, if_pos ⟨hqc, hqa⟩, if_pos hlen, happend]
      simp only [missingDesig, if_neg hqa]
  have hstep : namesStep (ents.names_and_designations.getD [])
      (actualOf (some sr)) (some sr)
      = .ok (names0 ++ [inferredEntry d (missingDesig (designationsOf names0))]) := by
    rw [hget]
    simp only [namesStep, hds, namesStepDetails]
    have hact2 : (names0.length : Int) < actualOf (some sr) := hact
    rw [if_pos hact2, hinf]
  constructor
  · simp only [enhance_entities_with_signature_validation, hstep, except_ok_bind,
      except_pure_eq, namesOf, mkEnhanced]
  · simp only [enhance_entities_with_signature_validation, hstep, except_ok_bind,
      except_pure_eq, expectedOf, mkEnhanced]
    simp [List.length_append]

/-- Witness for C7 (the spec's Scenario D): one existing entry
A. Tan / QA APPROVED, two signatures detected, detected names A. Tan and
B. Lee -- the reconciler appends B. Lee / QC PASSED and
`expected_signatures` becomes 2. -/
theorem C7_amended_inference_witness :
    namesOf (enhance_entities_with_signature_validation entsOneName (some srScenD))
        = some [{ name := some "A. Tan", designation := some "QA APPROVED" },
                { name := some "B. Lee", designation := some "QC PASSED" }]
      ∧ expectedOf (enhance_entities_with_signature_validation entsOneName (some srScenD))
        = some 2 := by
  have h := C7_amended_inference entsOneName srScenD
    [{ name := some "A. Tan", designation := some "QA APPROVED" }] [dTan, dLee] "B. Lee"
    rfl rfl (by decide) (by decide) (Or.inl (by decide)) (by decide) (by decide)
  exact ⟨by rw [h.1]; rfl, by rw [h.2]; rfl⟩

end PdfExtraction
